import Mathlib

/-!
Verification of the OmegaGO onboarding planner (the Node.js script embedded in
the repository).  The script reads up to five CSV manifests from the working
directory, cross-references rows by `project_id`, probes per-project secrets
files, and emits a structured plan; with `--apply` (and without `--dry-run`)
it additionally ensures a fixed set of directories exists.

The shallow embedding below models:
  - a CSV file as absent, malformed (present but unparseable), or parsed into
    an ordered list of rows, where a row is the record object produced by
    `csv-parse` with `columns: true` (an association list from header name to
    cell string);
  - a JavaScript plain object (as built by `Object.fromEntries` /
    repeated assignment) through characterizations faithful to the
    ECMAScript specification: an own-property lookup returns the value of the
    LAST entry written with that key (`lookupLast`); a property READ `obj[k]`
    falls back, when no own property carries `k`, to the inherited
    `Object.prototype` members — `toString`, `constructor`, `__proto__` and
    the rest, all truthy and none carrying any of the planner's column
    fields (`jsGet`); and `Object.keys` returns the own integer-indexed keys
    (canonical decimal strings below 2^32 - 1) first in ascending numeric
    order, then the remaining own string keys in first-insertion order
    (`jsKeys` composed with `insOrderKeys`);
  - the `dotenv.parse` result of a secrets file abstractly as the ordered list
    of key=value bindings it contains (only key names flow into the output);
  - `path.join(process.cwd(), ...)` with the working-directory prefix elided,
    as every path in one run shares it;
  - filesystem effects as an explicit trace: the list of `mkdir -p` calls the
    run performs, and `applyTo` as their action on a predicate of existing
    directories (`fs.mkdir` with `recursive: true` never fails on an existing
    directory, and each created path's parent is also ensured).
-/

/-- A CSV record object: header name to cell value, as produced by
`parse(text, { columns: true, skip_empty_lines: true })`. -/
abbrev Row := List (String × String)

/-- Property access `r[k]` on a record object: `none` models `undefined`. -/
def getField (r : Row) (k : String) : Option String :=
  (r.find? (fun p => p.1 == k)).map Prod.snd

/-- The key used when indexing a row: `r.project_id`, with JavaScript
`ToPropertyKey` turning an `undefined` key into the string "undefined". -/
def keyOf (r : Row) : String :=
  (getField r "project_id").getD "undefined"

/-- State of one CSV file on disk: absent, present but failing to parse, or
parsed into rows. -/
inductive CsvFile where
  | absent
  | malformed
  | parsed (rows : List Row)
deriving DecidableEq

/-- Whether `fileExists` reports the file (`fs.access` succeeds). -/
def CsvFile.isPresent : CsvFile → Bool
  | .absent => false
  | _ => true

/-- Result of `readCsvSync(file).catch(() => [])`: rows on success, `[]` when
the file is absent or its content fails to parse. -/
def ingest : CsvFile → List Row
  | .parsed rows => rows
  | _ => []

/-- JavaScript OWN-property lookup over the entry list that built the
object: the LAST entry with the key wins (repeated `[[Set]]` overwrites), so
lookup scans the reversed entry list for the first match.  A full property
read additionally falls back to the prototype chain: see `jsGet`. -/
def lookupLast {α : Type} (l : List (String × α)) (k : String) : Option α :=
  (l.reverse.find? (fun p => p.1 == k)).map Prod.snd

/-- Property keys of a JavaScript object in insertion order: first occurrence
of each key in the entry list that built the object. -/
def insOrderKeys : List String → List String
  | [] => []
  | k :: ks => k :: (insOrderKeys ks).filter (fun x => x != k)

/-- Numeric value of a decimal digit character. -/
def digitVal (c : Char) : Nat := c.toNat - 48

/-- Value of a list of decimal digit characters. -/
def digitsVal (cs : List Char) : Nat :=
  cs.foldl (fun n c => n * 10 + digitVal c) 0

/-- Whether a character list is the canonical decimal representation of a
natural number: nonempty, all digits, no leading zero except "0" itself. -/
def isCanonicalDigits : List Char → Bool
  | [] => false
  | [c] => c.isDigit
  | c :: d :: cs => c.isDigit && c != '0' && (d :: cs).all Char.isDigit

/-- Numeric value of a string of digits. -/
def strNatVal (s : String) : Nat := digitsVal s.data

/-- ECMAScript array index: the canonical decimal string of an integer
0 ≤ n < 2^32 − 1.  Such own property keys are enumerated before all other
string keys, in ascending numeric order. -/
def isArrayIndex (s : String) : Bool :=
  isCanonicalDigits s.data && decide (strNatVal s < 4294967295)

/-- Numeric comparison of array-index strings. -/
def numLE (a b : String) : Prop := strNatVal a ≤ strNatVal b

instance : DecidableRel numLE := fun a b => Nat.decLe (strNatVal a) (strNatVal b)

/-- `Object.keys` (and `for ... of Object.keys`, and `JSON.stringify`) order:
array-index keys ascending numerically, then the rest in insertion order. -/
def jsKeys (ks : List String) : List String :=
  List.insertionSort numLE (ks.filter isArrayIndex)
    ++ ks.filter (fun k => !(isArrayIndex k))

/-- A JSON value as it occurs in the planner's output document. -/
inductive JVal where
  | str (s : String)
  | jbool (b : Bool)
  | strList (l : List String)
deriving DecidableEq

/-- A JSON object: field name to value, in serialization order. -/
abbrev JObj := List (String × JVal)

/-- One check pushed onto `plan.checks`. -/
structure Check where
  kind : String
  ok : Bool
  details : JObj
deriving DecidableEq

/-- One per-project plan object. `type` is `meta.type`, which is absent from
the serialized output when the manifest row has no `type` column. -/
structure Plan where
  projectId : String
  type : Option String
  checks : List Check
  actions : List String
deriving DecidableEq

/-- The dry-run output document. -/
structure Summary where
  missingFiles : List String
  presentFiles : List String
  totalProjects : Nat
  plans : List Plan
deriving DecidableEq

/-- Result of `loadEnvIfExists`. -/
structure EnvInfo where
  envPath : String
  present : Bool
  vars : List String
deriving DecidableEq

/-- The secrets side of a snapshot: for each project id, `none` when
`secrets/<id>/.env` is absent, otherwise the ordered key=value bindings that
`dotenv.parse` extracts from it. -/
abbrev EnvMap := String → Option (List (String × String))

/-- `envPathForProject`, with the working-directory prefix elided. -/
def envPathForProject (pid : String) : String :=
  "secrets/" ++ pid ++ "/.env"

/-- `loadEnvIfExists`: probe the secrets file; on success keep only the
variable names (`Object.keys(parsed)`, hence in JavaScript key order). -/
def loadEnvIfExists (envs : EnvMap) (pid : String) : EnvInfo :=
  match envs pid with
  | some bindings =>
      { envPath := envPathForProject pid
        present := true
        vars := jsKeys (insOrderKeys (bindings.map Prod.fst)) }
  | none => { envPath := envPathForProject pid, present := false, vars := [] }

/-- The `envInfo` object as it appears under `details` in the output. -/
def envDetails (e : EnvInfo) : JObj :=
  [("envPath", JVal.str e.envPath), ("present", JVal.jbool e.present),
   ("vars", JVal.strList e.vars)]

/-- `pick(obj, keys)`: keep the listed fields that are defined, in the order
of `keys`. -/
def pick (r : Row) (ks : List String) : JObj :=
  ks.foldl
    (fun acc k =>
      match getField r k with
      | some v => acc ++ [(k, JVal.str v)]
      | none => acc)
    []

/-- The property names of `Object.prototype`: a read `obj[k]` on a plain
object with no own property `k` finds one of these inherited members, every
one of them truthy (a built-in function, or for `__proto__` — an accessor —
the `Object.prototype` object itself). -/
def protoProps : List String :=
  ["constructor", "hasOwnProperty", "isPrototypeOf", "propertyIsEnumerable",
   "toLocaleString", "toString", "valueOf", "__proto__",
   "__defineGetter__", "__defineSetter__", "__lookupGetter__",
   "__lookupSetter__"]

/-- Result of the JavaScript property read `obj[k]` on an index object: an
own data property holding a row, an inherited `Object.prototype` member, or
`undefined`. -/
inductive JsProp where
  | own (r : Row)
  | inherited
  | undef
deriving DecidableEq

/-- Property read `obj[k]` including the prototype-chain fallback: the own
property when one exists, else the inherited `Object.prototype` member when
`k` names one, else `undefined`. -/
def jsGet (idx : List (String × Row)) (k : String) : JsProp :=
  match lookupLast idx k with
  | some r => JsProp.own r
  | none => if protoProps.contains k then JsProp.inherited else JsProp.undef

/-- JavaScript truthiness of a read result: rows and the inherited members
are objects or functions, hence truthy; only `undefined` is falsy. -/
def JsProp.truthy : JsProp → Bool
  | .undef => false
  | _ => true

/-- Field access on a read result, as the planner performs it (`meta.type`,
`meta.deploy_target`, and the fields `pick` copies).  It is defined only on
own rows: none of the planner's column names (`type`, `deploy_target`,
`url`, `browsers`, `devices`, `build_tool`, `i18n_locales`, `provider`,
`endpoint_url`) is a property of any inherited `Object.prototype` member,
so a read of those fields off an inherited value is `undefined`. -/
def getFieldProp : JsProp → String → Option String
  | .own r, k => getField r k
  | _, _ => none

/-- `pick(x || \x7b\x7d, keys)` as the planner applies it to a read result:
on an own row it is `pick`; an inherited member (truthy, so `|| \x7b\x7d`
keeps it) has none of the picked column fields; `undefined` falls back to
the empty object. -/
def pickProp (p : JsProp) (ks : List String) : JObj :=
  ks.foldl
    (fun acc k =>
      match getFieldProp p k with
      | some v => acc ++ [(k, JVal.str v)]
      | none => acc)
    []

/-- `Object.fromEntries(rows.map(r => [r.project_id, r]))`, kept as the entry
list; reads go through `jsGet` and keys through `insOrderKeys`. -/
def indexOf (rows : List Row) : List (String × Row) :=
  rows.map (fun r => (keyOf r, r))

/-- The row check each type branch pushes: `ok` is the truthiness of the
read result, `details` is `pick(row || \x7b\x7d, keys)`. -/
def rowCheck (kind : String) (idx : List (String × Row)) (pid : String)
    (ks : List String) : Check :=
  { kind := kind
    ok := (jsGet idx pid).truthy
    details := pickProp (jsGet idx pid) ks }

/-- One input snapshot: the five CSV files and the secrets tree. -/
structure Snapshot where
  manifest : CsvFile
  tests : CsvFile
  webhooks : CsvFile
  htmlSites : CsvFile
  apps : CsvFile
  env : EnvMap

/-- The five indices plus the secrets map, as built at the top of `main`. -/
structure Ctx where
  byId : List (String × Row)
  testsById : List (String × Row)
  hooksById : List (String × Row)
  sitesById : List (String × Row)
  appsById : List (String × Row)
  envMap : EnvMap

/-- Build the indices from a snapshot (`Object.fromEntries` over each
ingested CSV). -/
def ctxOf (s : Snapshot) : Ctx :=
  { byId := indexOf (ingest s.manifest)
    testsById := indexOf (ingest s.tests)
    hooksById := indexOf (ingest s.webhooks)
    sitesById := indexOf (ingest s.htmlSites)
    appsById := indexOf (ingest s.apps)
    envMap := s.env }

/-- The `requiredFiles` constant. -/
def requiredFiles : List String :=
  ["PROJECTS_MANIFEST.csv", "PLAYWRIGHT_TESTS.csv", "WEBHOOKS.csv",
   "HTML_SITES.csv", "APPS.csv"]

/-- `presentFiles`: the loop over `requiredFiles` pushing each name whose
file exists, in loop order. -/
def presentFilesOf (s : Snapshot) : List String :=
  (if s.manifest.isPresent then ["PROJECTS_MANIFEST.csv"] else [])
    ++ (if s.tests.isPresent then ["PLAYWRIGHT_TESTS.csv"] else [])
    ++ (if s.webhooks.isPresent then ["WEBHOOKS.csv"] else [])
    ++ (if s.htmlSites.isPresent then ["HTML_SITES.csv"] else [])
    ++ (if s.apps.isPresent then ["APPS.csv"] else [])

/-- `missing = requiredFiles.filter(f => !presentFiles.includes(f))`. -/
def missingFilesOf (s : Snapshot) : List String :=
  requiredFiles.filter (fun f => !((presentFilesOf s).contains f))

/-- `projectIds = Object.keys(byId)`: distinct manifest keys in JavaScript
property order. -/
def projectIdsOf (s : Snapshot) : List String :=
  jsKeys (insOrderKeys ((ingest s.manifest).map keyOf))

/-- The body of the per-project loop: build one plan object.  The three type
branches and the apps branch push checks and actions in source order. -/
def planFor (c : Ctx) (pid : String) : Plan :=
  let meta := jsGet c.byId pid
  let ptype := getFieldProp meta "type"
  let envInfo := loadEnvIfExists c.envMap pid
  let checks1 : List Check :=
    [{ kind := "env", ok := envInfo.present, details := envDetails envInfo }]
  let actions1 : List String := []
  let checks2 :=
    if ptype == some "playwright_tests" then
      checks1 ++ [rowCheck "tests_row" c.testsById pid
        ["url", "browsers", "devices"]]
    else checks1
  let actions2 :=
    if ptype == some "playwright_tests" then
      actions1 ++ ["scaffold Playwright config and tests",
        "wire CI to run on PR and nightly"]
    else actions1
  let checks3 :=
    if ptype == some "html_site" then
      checks2 ++ [rowCheck "html_row" c.sitesById pid
        ["build_tool", "i18n_locales"]]
    else checks2
  let actions3 :=
    if ptype == some "html_site" then
      actions2 ++ ["scaffold HTML site with chosen build tool"]
        ++ (match getFieldProp meta "deploy_target" with
            | some dt => if dt == "" then [] else ["configure deploy: " ++ dt]
            | none => [])
    else actions2
  let checks4 :=
    if ptype == some "webhook" then
      checks3 ++ [rowCheck "webhook_row" c.hooksById pid
        ["provider", "endpoint_url"]]
    else checks3
  let actions4 :=
    if ptype == some "webhook" then
      actions3 ++ ["validate signing secret and subscribe events",
        "provision DLQ and retries"]
    else actions3
  let actions5 :=
    if (jsGet c.appsById pid).truthy then
      actions4 ++ ["prepare app release pipeline"]
    else actions4
  { projectId := pid, type := ptype, checks := checks4, actions := actions5 }

/-- The summary object assembled by a run (printed verbatim in dry-run
mode). -/
def dryRun (s : Snapshot) : Summary :=
  { missingFiles := missingFilesOf s
    presentFiles := presentFilesOf s
    totalProjects := (projectIdsOf s).length
    plans := (projectIdsOf s).map (planFor (ctxOf s)) }

/-- Mode selection: `args.includes('--dry-run') || !args.includes('--apply')`. -/
def isDryRun (args : List String) : Bool :=
  args.contains "--dry-run" || !(args.contains "--apply")

/-- The fixed top-level directories ensured in apply mode. -/
def toEnsure : List String := ["secrets", "content", "assets", "imports"]

/-- All directories `fs.mkdir(..., { recursive: true })` is called on in
apply mode, in call order: the four top-level names, then the three
per-project directories for each project id. -/
def ensuredDirs (s : Snapshot) : List String :=
  toEnsure
    ++ (projectIdsOf s).flatMap
      (fun pid => ["secrets/" ++ pid, "content/" ++ pid, "assets/" ++ pid])

/-- What a run prints to standard output. -/
inductive Output where
  | planDoc (summary : Summary)
  | applyMsg (m : String)
deriving DecidableEq

/-- A run's observable behavior: its output plus the trace of directories it
creates. -/
structure Outcome where
  out : Output
  mkdirs : List String
deriving DecidableEq

/-- The apply-mode status line. -/
def applyMessage : String :=
  "Apply step ensured base directories. Next steps: repo cloning and scaffolding."

/-- `main`: dry-run prints the summary and touches nothing; apply mode
ensures the directories and prints the status line. -/
def runMain (args : List String) (s : Snapshot) : Outcome :=
  if isDryRun args then { out := Output.planDoc (dryRun s), mkdirs := [] }
  else { out := Output.applyMsg applyMessage, mkdirs := ensuredDirs s }

/-- Effect of one apply-mode run on the set of existing directories
(`fs.mkdir` with `recursive: true` is create-if-missing and never fails on an
existing directory; each created path's parent is itself in the list). -/
def applyTo (s : Snapshot) (exist : String → Bool) : String → Bool :=
  fun d => exist d || (ensuredDirs s).contains d

/-! Concrete snapshots used by witnesses and counterexamples. -/

/-- A snapshot with no files at all. -/
def emptySnap : Snapshot :=
  { manifest := .absent, tests := .absent, webhooks := .absent,
    htmlSites := .absent, apps := .absent, env := fun _ => none }

/-- The primary-manifest row of the end-to-end scenario. -/
def demoManifestRow : Row :=
  [("project_id", "demo1"), ("type", "html_site"), ("deploy_target", "vercel")]

/-- The `HTML_SITES.csv` row of the end-to-end scenario. -/
def demoSiteRow : Row :=
  [("project_id", "demo1"), ("build_tool", "vite"), ("i18n_locales", "en")]

/-- The end-to-end scenario snapshot: one manifest row, one sites row, no
secrets file. -/
def demoSnap : Snapshot :=
  { manifest := .parsed [demoManifestRow], tests := .absent, webhooks := .absent,
    htmlSites := .parsed [demoSiteRow], apps := .absent, env := fun _ => none }

/-- A manifest whose identifiers are "b" then "1": the second is an ECMAScript
array index, so `Object.keys` moves it in front of "b". -/
def orderSnap : Snapshot :=
  { manifest := .parsed [[("project_id", "b")], [("project_id", "1")]],
    tests := .absent, webhooks := .absent, htmlSites := .absent, apps := .absent,
    env := fun _ => none }

/-- Only the primary manifest exists, and its single project identifier
"toString" collides with an inherited `Object.prototype` member. -/
def protoSnap : Snapshot :=
  { manifest := .parsed [[("project_id", "toString"), ("type", "playwright_tests")]],
    tests := .absent, webhooks := .absent, htmlSites := .absent, apps := .absent,
    env := fun _ => none }

/-- A snapshot whose primary manifest is present but unparseable. -/
def malformedSnap : Snapshot := { emptySnap with manifest := .malformed }

/-- Two duplicate-keyed rows with different field values. -/
def dupRow1 : Row := [("project_id", "p"), ("build_tool", "vite")]

/-- The later of the two duplicate-keyed rows. -/
def dupRow2 : Row := [("project_id", "p"), ("build_tool", "astro")]

/-- A secrets tree for `demo1` with one variable, first value. -/
def envValsA : EnvMap :=
  fun pid => if pid = "demo1" then some [("API_KEY", "value-one")] else none

/-- The same secrets tree with the same variable name and a different value. -/
def envValsB : EnvMap :=
  fun pid => if pid = "demo1" then some [("API_KEY", "value-two")] else none

/-- The scenario snapshot with the first secrets tree. -/
def secretsSnapA : Snapshot := { demoSnap with env := envValsA }

/-- The scenario snapshot with the second secrets tree. -/
def secretsSnapB : Snapshot := { demoSnap with env := envValsB }

/-- A webhook row keyed by an identifier no manifest row has. -/
def ghostRow : Row := [("project_id", "ghost"), ("provider", "stripe")]

/-- The scenario snapshot with all four secondary files parsing. -/
def knownSnap : Snapshot :=
  { manifest := .parsed [demoManifestRow], tests := .parsed [],
    webhooks := .parsed [], htmlSites := .parsed [demoSiteRow],
    apps := .parsed [], env := fun _ => none }

/-- `knownSnap` plus one webhook row keyed by an unknown identifier. -/
def ghostSnap : Snapshot := { knownSnap with webhooks := .parsed [ghostRow] }

/-! Helper lemmas about the JavaScript object model. -/

/-- Lookup distributes over the entry list: the right part wins. -/
theorem lookupLast_append {α : Type} (l1 l2 : List (String × α)) (k : String) :
    lookupLast (l1 ++ l2) k = (lookupLast l2 k).or (lookupLast l1 k) := by
  unfold lookupLast
  rw [List.reverse_append, List.find?_append]
  cases l2.reverse.find? (fun p => p.1 == k) <;> rfl

/-- Lookup misses when no entry carries the key. -/
theorem lookupLast_eq_none {α : Type} {l : List (String × α)} {k : String}
    (h : ∀ p ∈ l, p.1 ≠ k) : lookupLast l k = none := by
  have hn : l.reverse.find? (fun p => p.1 == k) = none :=
    List.find?_eq_none.mpr (fun p hp => by
      simpa using h p (List.mem_reverse.mp hp))
  rw [lookupLast, hn]
  rfl

/-- Insertion-order keys do not change membership. -/
theorem mem_insOrderKeys {x : String} : ∀ {l : List String},
    x ∈ insOrderKeys l ↔ x ∈ l
  | [] => Iff.rfl
  | k :: ks => by
    simp only [insOrderKeys, List.mem_cons, List.mem_filter, bne_iff_ne,
      mem_insOrderKeys (l := ks)]
    constructor
    · rintro (rfl | ⟨h, _⟩)
      · exact Or.inl rfl
      · exact Or.inr h
    · rintro (rfl | h)
      · exact Or.inl rfl
      · by_cases hx : x = k
        · exact Or.inl hx
        · exact Or.inr ⟨h, hx⟩

/-- Insertion-order keys are distinct. -/
theorem nodup_insOrderKeys : ∀ (l : List String), (insOrderKeys l).Nodup
  | [] => List.nodup_nil
  | k :: ks => by
    refine List.Nodup.cons ?_ (List.Nodup.filter _ (nodup_insOrderKeys ks))
    intro hk
    rcases List.mem_filter.mp hk with ⟨_, hne⟩
    exact (bne_iff_ne.mp hne) rfl

/-- JavaScript key order does not change membership. -/
theorem mem_jsKeys {x : String} {l : List String} : x ∈ jsKeys l ↔ x ∈ l := by
  simp only [jsKeys, List.mem_append,
    (List.perm_insertionSort numLE (l.filter isArrayIndex)).mem_iff,
    List.mem_filter]
  constructor
  · rintro (⟨h, _⟩ | ⟨h, _⟩) <;> exact h
  · intro h
    by_cases hx : isArrayIndex x
    · exact Or.inl ⟨h, hx⟩
    · exact Or.inr ⟨h, by simp [hx]⟩

/-- JavaScript key order keeps distinct keys distinct. -/
theorem nodup_jsKeys {l : List String} (h : l.Nodup) : (jsKeys l).Nodup := by
  refine List.Nodup.append ?_ (List.Nodup.filter _ h) ?_
  · exact ((List.perm_insertionSort numLE _).nodup_iff).mpr (List.Nodup.filter _ h)
  · intro a ha hb
    rcases List.mem_filter.mp
      ((List.perm_insertionSort numLE _).mem_iff.mp ha) with ⟨_, hp⟩
    rcases List.mem_filter.mp hb with ⟨_, hq⟩
    rw [hp] at hq
    exact absurd hq (by decide)

/-- With no array-index key, JavaScript key order is insertion order. -/
theorem jsKeys_of_no_index {l : List String}
    (h : ∀ k ∈ l, isArrayIndex k = false) : jsKeys l = l := by
  have h1 : l.filter isArrayIndex = [] :=
    List.filter_eq_nil_iff.mpr (fun a ha => by simp [h a ha])
  have h2 : l.filter (fun k => !(isArrayIndex k)) = l :=
    List.filter_eq_self.mpr (fun a ha => by simp [h a ha])
  rw [jsKeys, h1, h2]
  rfl

/-- Each plan is tagged with the project id it was built for. -/
theorem planFor_projectId (c : Ctx) (pid : String) :
    (planFor c pid).projectId = pid := rfl

/-- The plans sequence lists exactly the project ids, in order. -/
theorem plans_map_projectId (s : Snapshot) :
    (dryRun s).plans.map Plan.projectId = projectIdsOf s := by
  show ((projectIdsOf s).map (planFor (ctxOf s))).map Plan.projectId
      = projectIdsOf s
  rw [List.map_map]
  have h : ∀ a ∈ projectIdsOf s,
      (Plan.projectId ∘ planFor (ctxOf s)) a = id a := fun a _ => rfl
  rw [List.map_congr_left h, List.map_id]

/-- A project id occurs in the iteration order exactly when some manifest row
carries it. -/
theorem mem_projectIdsOf {s : Snapshot} {pid : String} :
    pid ∈ projectIdsOf s ↔ ∃ r ∈ ingest s.manifest, keyOf r = pid := by
  rw [projectIdsOf, mem_jsKeys, mem_insOrderKeys, List.mem_map]

/-- Lookup only inspects the entries that carry the key. -/
theorem lookupLast_restrict {α : Type} (l : List (String × α)) (k : String) :
    lookupLast l k = lookupLast (l.filter (fun p => p.1 == k)) k := by
  unfold lookupLast
  rw [← List.filter_reverse, List.find?_filter]
  have hpred : (fun (a : String × α) => decide ((a.1 == k) = true ∧ (a.1 == k) = true))
      = (fun (a : String × α) => a.1 == k) := by
    funext a
    cases h : (a.1 == k) <;> simp [h]
  rw [hpred]

/-- Filtering an index by key is indexing the filtered rows. -/
theorem indexOf_filter_key (rows : List Row) (k : String) :
    (indexOf rows).filter (fun p => p.1 == k)
      = indexOf (rows.filter (fun r => keyOf r == k)) := by
  unfold indexOf
  rw [List.filter_map]
  rfl

/-- Two row lists agreeing on all rows keyed inside `ids` index identically at
every key of `ids`. -/
theorem lookupLast_indexOf_congr (rows1 rows2 : List Row) (ids : List String)
    (k : String) (hk : k ∈ ids)
    (hf : rows1.filter (fun r => ids.contains (keyOf r))
        = rows2.filter (fun r => ids.contains (keyOf r))) :
    lookupLast (indexOf rows1) k = lookupLast (indexOf rows2) k := by
  have hc : ids.contains k = true := List.elem_eq_true_of_mem hk
  have key : ∀ rows : List Row,
      rows.filter (fun r => keyOf r == k)
        = (rows.filter (fun r => ids.contains (keyOf r))).filter
            (fun r => keyOf r == k) := by
    intro rows
    rw [List.filter_filter]
    apply List.filter_congr
    intro r _
    by_cases h : keyOf r = k
    · rw [h, hc]
      simp
    · have hb : (keyOf r == k) = false := by simp [h]
      rw [hb]
      rfl
  rw [lookupLast_restrict (indexOf rows1), lookupLast_restrict (indexOf rows2),
    indexOf_filter_key, indexOf_filter_key, key rows1, key rows2, hf]

/-- Secrets files with identical key sequences yield identical env probes,
whatever their values. -/
theorem loadEnv_keys_congr (e1 e2 : EnvMap) (pid : String)
    (h : (e1 pid).map (List.map Prod.fst) = (e2 pid).map (List.map Prod.fst)) :
    loadEnvIfExists e1 pid = loadEnvIfExists e2 pid := by
  cases h1 : e1 pid with
  | none =>
    cases h2 : e2 pid with
    | none => simp [loadEnvIfExists, h1, h2]
    | some bs2 => rw [h1, h2] at h; exact absurd h (by simp)
  | some bs1 =>
    cases h2 : e2 pid with
    | none => rw [h1, h2] at h; exact absurd h (by simp)
    | some bs2 =>
      rw [h1, h2] at h
      have hkeys : bs1.map Prod.fst = bs2.map Prod.fst := by simpa using h
      simp [loadEnvIfExists, h1, h2, hkeys]

/-- A plan only depends on the context through the five own-lookups at its
id (the prototype fallback is a function of the id alone) and the env
probe. -/
theorem planFor_congr (c1 c2 : Ctx) (pid : String)
    (hby : lookupLast c1.byId pid = lookupLast c2.byId pid)
    (ht : lookupLast c1.testsById pid = lookupLast c2.testsById pid)
    (hh : lookupLast c1.hooksById pid = lookupLast c2.hooksById pid)
    (hs : lookupLast c1.sitesById pid = lookupLast c2.sitesById pid)
    (ha : lookupLast c1.appsById pid = lookupLast c2.appsById pid)
    (he : loadEnvIfExists c1.envMap pid = loadEnvIfExists c2.envMap pid) :
    planFor c1 pid = planFor c2 pid := by
  have gby : jsGet c1.byId pid = jsGet c2.byId pid := by
    unfold jsGet
    rw [hby]
  have gt : jsGet c1.testsById pid = jsGet c2.testsById pid := by
    unfold jsGet
    rw [ht]
  have gh : jsGet c1.hooksById pid = jsGet c2.hooksById pid := by
    unfold jsGet
    rw [hh]
  have gs : jsGet c1.sitesById pid = jsGet c2.sitesById pid := by
    unfold jsGet
    rw [hs]
  have ga : jsGet c1.appsById pid = jsGet c2.appsById pid := by
    unfold jsGet
    rw [ha]
  simp only [planFor, rowCheck]
  rw [gby, gt, gh, gs, ga, he]

/-- Rows index piecewise. -/
theorem indexOf_append (a b : List Row) :
    indexOf (a ++ b) = indexOf a ++ indexOf b := by
  unfold indexOf
  exact List.map_append _ a b

/-- C1 counterexample: with manifest identifiers "b" then "1", the plans come
out as ["1", "b"] because "1" is an ECMAScript array index, not in manifest
row order ["b", "1"]. -/
theorem C1_counterexample :
    (dryRun orderSnap).plans.map Plan.projectId = ["1", "b"]
    ∧ (ingest orderSnap.manifest).map keyOf = ["b", "1"]
    ∧ (["1", "b"] : List String) ≠ ["b", "1"] :=
  ⟨by decide, by decide, by decide⟩

/-- C1 (amended): the plans sequence carries exactly one plan per distinct
manifest identifier — no duplicates, same membership — in JavaScript property
order: array-index identifiers first in ascending numeric order, then the
rest in first-occurrence manifest row order; it does not depend on the
secondary CSVs; and it is exactly first-occurrence manifest row order
whenever no identifier is an array-index string. -/
theorem C1_order_amended (s sAlt : Snapshot) (halt : sAlt.manifest = s.manifest) :
    (dryRun s).plans.map Plan.projectId
        = jsKeys (insOrderKeys ((ingest s.manifest).map keyOf))
    ∧ ((dryRun s).plans.map Plan.projectId).Nodup
    ∧ (∀ k, k ∈ (dryRun s).plans.map Plan.projectId
        ↔ k ∈ (ingest s.manifest).map keyOf)
    ∧ (dryRun sAlt).plans.map Plan.projectId = (dryRun s).plans.map Plan.projectId
    ∧ ((∀ k ∈ (ingest s.manifest).map keyOf, isArrayIndex k = false) →
        (dryRun s).plans.map Plan.projectId
          = insOrderKeys ((ingest s.manifest).map keyOf)) := by
  refine ⟨?_, ?_, ?_, ?_, ?_⟩
  · rw [plans_map_projectId]
    rfl
  · rw [plans_map_projectId]
    exact nodup_jsKeys (nodup_insOrderKeys _)
  · intro k
    rw [plans_map_projectId]
    unfold projectIdsOf
    exact mem_jsKeys.trans mem_insOrderKeys
  · rw [plans_map_projectId, plans_map_projectId]
    unfold projectIdsOf
    rw [halt]
  · intro h
    rw [plans_map_projectId]
    unfold projectIdsOf
    exact jsKeys_of_no_index (fun k hk => h k (mem_insOrderKeys.mp hk))

/-- C1 witness: on the scenario snapshot every hypothesis holds and the plans
order is first-occurrence manifest order. -/
theorem C1_witness :
    (dryRun demoSnap).plans.map Plan.projectId
      = insOrderKeys ((ingest demoSnap.manifest).map keyOf) :=
  (C1_order_amended demoSnap demoSnap rfl).2.2.2.2 (by decide)

/-- C2 counterexample: an argument list holding both flags contains
`--apply` yet still selects dry-run mode. -/
theorem C2_counterexample :
    isDryRun ["--dry-run", "--apply"] = true
    ∧ (["--dry-run", "--apply"] : List String).contains "--apply" = true :=
  ⟨by decide, by decide⟩

/-- C2 (amended): apply mode is selected iff the argument list contains
`--apply` and does not contain `--dry-run`; any list without `--apply` is
dry-run. -/
theorem C2_mode_amended (args : List String) :
    (isDryRun args = false
      ↔ (args.contains "--apply" = true ∧ args.contains "--dry-run" = false))
    ∧ (args.contains "--apply" = false → isDryRun args = true) := by
  unfold isDryRun
  cases h1 : args.contains "--dry-run" <;> cases h2 : args.contains "--apply" <;> simp

/-- C2 witness: a list without `--apply` selects dry-run mode. -/
theorem C2_witness : isDryRun ["--dry-run"] = true :=
  (C2_mode_amended ["--dry-run"]).2 (by decide)

/-- C3 counterexample: in the end-to-end scenario the env check fails but its
details are not empty — they carry the `envPath`, `present` and `vars`
fields of the probe object. -/
theorem C3_counterexample :
    (dryRun demoSnap).plans.map
        (fun p => p.checks.map (fun ch => (ch.kind, ch.ok, ch.details)))
      = [[("env", false,
            [("envPath", JVal.str "secrets/demo1/.env"),
             ("present", JVal.jbool false), ("vars", JVal.strList [])]),
          ("html_row", true,
            [("build_tool", JVal.str "vite"),
             ("i18n_locales", JVal.str "en")])]]
    ∧ ([("envPath", JVal.str "secrets/demo1/.env"),
        ("present", JVal.jbool false), ("vars", JVal.strList [])] : JObj) ≠ [] :=
  ⟨by decide, by decide⟩

/-- C3 (amended): the scenario's dry-run plan for demo1 has an env check with
pass=false whose details are the probe object with an empty variable list, an
html_row check with pass=true and the build_tool/i18n_locales details, and
exactly the two expected actions. -/
theorem C3_scenario_amended :
    (dryRun demoSnap).plans
      = [{ projectId := "demo1", type := some "html_site",
           checks := [
             { kind := "env", ok := false,
               details := [("envPath", JVal.str "secrets/demo1/.env"),
                           ("present", JVal.jbool false),
                           ("vars", JVal.strList [])] },
             { kind := "html_row", ok := true,
               details := [("build_tool", JVal.str "vite"),
                           ("i18n_locales", JVal.str "en")] }],
           actions := ["scaffold HTML site with chosen build tool",
                       "configure deploy: vercel"] }] := by
  decide

/-- C4: the code fails the claim at a concrete input.  With only the primary
manifest present — carrying the single row `project_id=toString,
type=playwright_tests` — `missingFiles` does list exactly the four secondary
names, but the tests_row check reports pass=true: `PLAYWRIGHT_TESTS.csv`
being absent makes the index an empty plain object, so the read
`testsById["toString"]` finds the inherited, truthy
`Object.prototype.toString`, and the claimed universal pass=false is false
at this snapshot (the spurious app-pipeline action fires the same way). -/
theorem C4_prototype_leak :
    (dryRun protoSnap).missingFiles
      = ["PLAYWRIGHT_TESTS.csv", "WEBHOOKS.csv", "HTML_SITES.csv", "APPS.csv"]
    ∧ (dryRun protoSnap).plans.map
        (fun p => p.checks.map (fun ch => (ch.kind, ch.ok, ch.details)))
      = [[("env", false,
            [("envPath", JVal.str "secrets/toString/.env"),
             ("present", JVal.jbool false), ("vars", JVal.strList [])]),
          ("tests_row", true, ([] : JObj))]]
    ∧ (dryRun protoSnap).plans.map Plan.actions
      = [["scaffold Playwright config and tests",
          "wire CI to run on PR and nightly", "prepare app release pipeline"]]
    ∧ ¬ (∀ p ∈ (dryRun protoSnap).plans, ∀ ch ∈ p.checks,
          (ch.kind = "tests_row" ∨ ch.kind = "html_row"
            ∨ ch.kind = "webhook_row") →
          (ch.ok = false ∧ ch.details = [])) :=
  ⟨by decide, by decide, by decide, by decide⟩

/-- C5: when two rows share a key and no later row carries it, the index maps
the key to the later of the two, and any row check derived from that index
reflects only that later row. -/
theorem C5_last_write_wins (pre mid post : List Row) (r1 r2 : Row) (k : String)
    (kind : String) (ks : List String)
    (_hr1 : keyOf r1 = k) (h2 : keyOf r2 = k)
    (hpost : ∀ r ∈ post, keyOf r ≠ k) :
    lookupLast (indexOf (pre ++ r1 :: (mid ++ r2 :: post))) k = some r2
    ∧ rowCheck kind (indexOf (pre ++ r1 :: (mid ++ r2 :: post))) k ks
      = { kind := kind, ok := true, details := pick r2 ks } := by
  have hpost' : lookupLast (indexOf post) k = none :=
    lookupLast_eq_none (by
      intro p hp
      rcases List.mem_map.mp hp with ⟨r, hr, rfl⟩
      exact hpost r hr)
  have h2' : lookupLast (indexOf (r2 :: post)) k = some r2 := by
    show lookupLast ([(keyOf r2, r2)] ++ indexOf post) k = some r2
    rw [lookupLast_append, hpost']
    show lookupLast [(keyOf r2, r2)] k = some r2
    simp [lookupLast, h2]
  have hlook : lookupLast (indexOf (pre ++ r1 :: (mid ++ r2 :: post))) k = some r2 := by
    rw [indexOf_append, lookupLast_append]
    have hr : lookupLast (indexOf (r1 :: (mid ++ r2 :: post))) k = some r2 := by
      rw [show r1 :: (mid ++ r2 :: post) = [r1] ++ (mid ++ r2 :: post) from rfl,
        indexOf_append, lookupLast_append, indexOf_append, lookupLast_append, h2']
      rfl
    rw [hr]
    rfl
  refine ⟨hlook, ?_⟩
  unfold rowCheck jsGet
  rw [hlook]
  rfl

/-- C5 witness: with the two duplicate rows and nothing after them, lookup
returns the later row. -/
theorem C5_witness :
    lookupLast (indexOf [dupRow1, dupRow2]) "p" = some dupRow2 :=
  (C5_last_write_wins [] [] [] dupRow1 dupRow2 "p" "html_row" ["build_tool"]
    rfl rfl (by simp)).1

/-- C6: an absent or malformed CSV ingests to the empty row list; an absent
or malformed primary manifest yields zero projects and no plans (the run
still completes and prints the document); and two snapshots whose five files
ingest identically and whose secrets agree are downstream-indistinguishable —
same plans, same project count. -/
theorem C6_fail_soft (c : CsvFile) (s s1 s2 : Snapshot)
    (hc : c = CsvFile.absent ∨ c = CsvFile.malformed)
    (hs : s.manifest = CsvFile.absent ∨ s.manifest = CsvFile.malformed)
    (h1 : ingest s1.manifest = ingest s2.manifest)
    (h2 : ingest s1.tests = ingest s2.tests)
    (h3 : ingest s1.webhooks = ingest s2.webhooks)
    (h4 : ingest s1.htmlSites = ingest s2.htmlSites)
    (h5 : ingest s1.apps = ingest s2.apps)
    (h6 : s1.env = s2.env) :
    ingest c = []
    ∧ ((dryRun s).totalProjects = 0 ∧ (dryRun s).plans = [])
    ∧ ((dryRun s1).plans = (dryRun s2).plans
        ∧ (dryRun s1).totalProjects = (dryRun s2).totalProjects) := by
  have hing : ∀ c', (c' = CsvFile.absent ∨ c' = CsvFile.malformed) →
      ingest c' = [] := by
    rintro c' (rfl | rfl) <;> rfl
  have hctx : ctxOf s1 = ctxOf s2 := by
    unfold ctxOf
    rw [h1, h2, h3, h4, h5, h6]
  have hids : projectIdsOf s1 = projectIdsOf s2 := by
    unfold projectIdsOf
    rw [h1]
  refine ⟨hing c hc, ⟨?_, ?_⟩, ?_, ?_⟩
  · show (projectIdsOf s).length = 0
    unfold projectIdsOf
    rw [hing _ hs]
    rfl
  · show (projectIdsOf s).map (planFor (ctxOf s)) = []
    unfold projectIdsOf
    rw [hing _ hs]
    rfl
  · show (projectIdsOf s1).map (planFor (ctxOf s1))
      = (projectIdsOf s2).map (planFor (ctxOf s2))
    rw [hctx, hids]
  · show (projectIdsOf s1).length = (projectIdsOf s2).length
    rw [hids]

/-- C6 witness: a malformed file ingests to no rows, with the remaining
hypotheses discharged on concrete snapshots. -/
theorem C6_witness : ingest CsvFile.malformed = [] :=
  (C6_fail_soft CsvFile.malformed malformedSnap emptySnap malformedSnap
    (Or.inr rfl) (Or.inr rfl) rfl rfl rfl rfl rfl rfl).1

/-- C7: every dry-run invocation creates no directory and emits nothing but
the structured plan document. -/
theorem C7_dry_run_pure (args : List String) (s : Snapshot)
    (h : isDryRun args = true) :
    runMain args s = { out := Output.planDoc (dryRun s), mkdirs := [] } := by
  simp [runMain, h]

/-- C7 witness: the `--dry-run` invocation on the empty snapshot. -/
theorem C7_witness :
    runMain ["--dry-run"] emptySnap
      = { out := Output.planDoc (dryRun emptySnap), mkdirs := [] } :=
  C7_dry_run_pure ["--dry-run"] emptySnap (by decide)

/-- C8: two snapshots with identical CSV files whose secrets files carry the
same key sequences — however different the values — produce identical dry-run
output. -/
theorem C8_env_values_hidden (s1 s2 : Snapshot)
    (hm : s1.manifest = s2.manifest) (ht : s1.tests = s2.tests)
    (hw : s1.webhooks = s2.webhooks) (hh : s1.htmlSites = s2.htmlSites)
    (ha : s1.apps = s2.apps)
    (he : ∀ pid, (s1.env pid).map (List.map Prod.fst)
        = (s2.env pid).map (List.map Prod.fst)) :
    dryRun s1 = dryRun s2 := by
  have hpres : presentFilesOf s1 = presentFilesOf s2 := by
    unfold presentFilesOf
    rw [hm, ht, hw, hh, ha]
  have hmiss : missingFilesOf s1 = missingFilesOf s2 := by
    unfold missingFilesOf
    rw [hpres]
  have hids : projectIdsOf s1 = projectIdsOf s2 := by
    unfold projectIdsOf
    rw [hm]
  have hplans : (projectIdsOf s1).map (planFor (ctxOf s1))
      = (projectIdsOf s2).map (planFor (ctxOf s2)) := by
    rw [hids]
    apply List.map_congr_left
    intro pid _
    apply planFor_congr
    · show lookupLast (indexOf (ingest s1.manifest)) pid
        = lookupLast (indexOf (ingest s2.manifest)) pid
      rw [hm]
    · show lookupLast (indexOf (ingest s1.tests)) pid
        = lookupLast (indexOf (ingest s2.tests)) pid
      rw [ht]
    · show lookupLast (indexOf (ingest s1.webhooks)) pid
        = lookupLast (indexOf (ingest s2.webhooks)) pid
      rw [hw]
    · show lookupLast (indexOf (ingest s1.htmlSites)) pid
        = lookupLast (indexOf (ingest s2.htmlSites)) pid
      rw [hh]
    · show lookupLast (indexOf (ingest s1.apps)) pid
        = lookupLast (indexOf (ingest s2.apps)) pid
      rw [ha]
    · exact loadEnv_keys_congr s1.env s2.env pid (he pid)
  unfold dryRun
  rw [hmiss, hpres, hplans, hids]

/-- C8 witness: the two secrets trees differ only in the value of API_KEY and
the outputs coincide. -/
theorem C8_witness : dryRun secretsSnapA = dryRun secretsSnapB :=
  C8_env_values_hidden secretsSnapA secretsSnapB rfl rfl rfl rfl rfl
    (fun pid => by
      show (envValsA pid).map (List.map Prod.fst)
        = (envValsB pid).map (List.map Prod.fst)
      by_cases h : pid = "demo1" <;> simp [envValsA, envValsB, h])

/-- C9: one apply run already produces the final directory set — a second run
changes nothing — and that set is the prior directories plus the four
top-level names plus the three per-project directories of every manifest
identifier; the `--apply` invocation's creation trace is exactly the ensured
list. -/
theorem C9_apply_idempotent (s : Snapshot) (exist : String → Bool) (d : String) :
    applyTo s (applyTo s exist) d = applyTo s exist d
    ∧ (applyTo s exist d = true ↔
        (exist d = true ∨ d ∈ toEnsure
          ∨ ∃ r ∈ ingest s.manifest,
              (d = "secrets/" ++ keyOf r ∨ d = "content/" ++ keyOf r
                ∨ d = "assets/" ++ keyOf r)))
    ∧ (runMain ["--apply"] s).mkdirs = ensuredDirs s := by
  refine ⟨?_, ?_, ?_⟩
  · show ((exist d || (ensuredDirs s).contains d) || (ensuredDirs s).contains d)
      = (exist d || (ensuredDirs s).contains d)
    rw [Bool.or_assoc, Bool.or_self]
  · have hset : d ∈ ensuredDirs s ↔ (d ∈ toEnsure
        ∨ ∃ r ∈ ingest s.manifest,
            (d = "secrets/" ++ keyOf r ∨ d = "content/" ++ keyOf r
              ∨ d = "assets/" ++ keyOf r)) := by
      unfold ensuredDirs
      rw [List.mem_append]
      apply or_congr Iff.rfl
      rw [List.mem_flatMap]
      constructor
      · rintro ⟨pid, hpid, hd⟩
        rcases mem_projectIdsOf.mp hpid with ⟨r, hr, rfl⟩
        refine ⟨r, hr, ?_⟩
        simpa using hd
      · rintro ⟨r, hr, hd⟩
        refine ⟨keyOf r, mem_projectIdsOf.mpr ⟨r, hr, rfl⟩, ?_⟩
        simpa using hd
    show (exist d || (ensuredDirs s).contains d) = true ↔ _
    rw [Bool.or_eq_true]
    apply or_congr Iff.rfl
    exact Iff.trans List.elem_iff hset
  · have h : isDryRun ["--apply"] = false := by decide
    simp [runMain, h]

/-- C10: rows of the secondary CSVs keyed by identifiers no manifest row
carries have no effect: if all four secondary files parse in both snapshots
and agree on the rows keyed inside the manifest, the outputs are identical. -/
theorem C10_unknown_ids_irrelevant (s1 s2 : Snapshot)
    (tsA tsB wsA wsB siA siB apA apB : List Row)
    (hm : s1.manifest = s2.manifest) (he : s1.env = s2.env)
    (ht1 : s1.tests = CsvFile.parsed tsA) (ht2 : s2.tests = CsvFile.parsed tsB)
    (hw1 : s1.webhooks = CsvFile.parsed wsA) (hw2 : s2.webhooks = CsvFile.parsed wsB)
    (hh1 : s1.htmlSites = CsvFile.parsed siA) (hh2 : s2.htmlSites = CsvFile.parsed siB)
    (ha1 : s1.apps = CsvFile.parsed apA) (ha2 : s2.apps = CsvFile.parsed apB)
    (hft : tsA.filter (fun r => ((ingest s1.manifest).map keyOf).contains (keyOf r))
        = tsB.filter (fun r => ((ingest s1.manifest).map keyOf).contains (keyOf r)))
    (hfw : wsA.filter (fun r => ((ingest s1.manifest).map keyOf).contains (keyOf r))
        = wsB.filter (fun r => ((ingest s1.manifest).map keyOf).contains (keyOf r)))
    (hfh : siA.filter (fun r => ((ingest s1.manifest).map keyOf).contains (keyOf r))
        = siB.filter (fun r => ((ingest s1.manifest).map keyOf).contains (keyOf r)))
    (hfa : apA.filter (fun r => ((ingest s1.manifest).map keyOf).contains (keyOf r))
        = apB.filter (fun r => ((ingest s1.manifest).map keyOf).contains (keyOf r))) :
    dryRun s1 = dryRun s2 := by
  have hpres : presentFilesOf s1 = presentFilesOf s2 := by
    unfold presentFilesOf
    rw [hm, ht1, ht2, hw1, hw2, hh1, hh2, ha1, ha2]
    rfl
  have hmiss : missingFilesOf s1 = missingFilesOf s2 := by
    unfold missingFilesOf
    rw [hpres]
  have hids : projectIdsOf s1 = projectIdsOf s2 := by
    unfold projectIdsOf
    rw [hm]
  have hplans : (projectIdsOf s1).map (planFor (ctxOf s1))
      = (projectIdsOf s2).map (planFor (ctxOf s2)) := by
    rw [hids]
    apply List.map_congr_left
    intro pid hpid
    have hmem : pid ∈ (ingest s1.manifest).map keyOf := by
      rcases mem_projectIdsOf.mp hpid with ⟨r, hr, rfl⟩
      rw [hm]
      exact List.mem_map_of_mem keyOf hr
    apply planFor_congr
    · show lookupLast (indexOf (ingest s1.manifest)) pid
        = lookupLast (indexOf (ingest s2.manifest)) pid
      rw [hm]
    · show lookupLast (indexOf (ingest s1.tests)) pid
        = lookupLast (indexOf (ingest s2.tests)) pid
      rw [ht1, ht2]
      exact lookupLast_indexOf_congr tsA tsB _ pid hmem hft
    · show lookupLast (indexOf (ingest s1.webhooks)) pid
        = lookupLast (indexOf (ingest s2.webhooks)) pid
      rw [hw1, hw2]
      exact lookupLast_indexOf_congr wsA wsB _ pid hmem hfw
    · show lookupLast (indexOf (ingest s1.htmlSites)) pid
        = lookupLast (indexOf (ingest s2.htmlSites)) pid
      rw [hh1, hh2]
      exact lookupLast_indexOf_congr siA siB _ pid hmem hfh
    · show lookupLast (indexOf (ingest s1.apps)) pid
        = lookupLast (indexOf (ingest s2.apps)) pid
      rw [ha1, ha2]
      exact lookupLast_indexOf_congr apA apB _ pid hmem hfa
    · show loadEnvIfExists s1.env pid = loadEnvIfExists s2.env pid
      rw [he]
  unfold dryRun
  rw [hmiss, hpres, hplans, hids]

/-- C10 witness: adding a webhook row keyed "ghost", absent from the
manifest, leaves the output unchanged. -/
theorem C10_witness : dryRun knownSnap = dryRun ghostSnap :=
  C10_unknown_ids_irrelevant knownSnap ghostSnap [] [] [] [ghostRow]
    [demoSiteRow] [demoSiteRow] [] []
    rfl rfl rfl rfl rfl rfl rfl rfl rfl rfl
    (by decide) (by decide) (by decide) (by decide)
